import Mathlib

/-!
Verification of the Sagittarius-STDLIB SSDL compiler core.

The embedded code lives in `src/python/compiler/__init__.py`.  The implemented
parsing operations are `Integer.parse` (split the input at the first space and
convert the first part with Python `int`) and `Version.parse` (three successive
`Integer.parse` calls).  Failures are Python `ValueError` exceptions, embedded
here as `Except PyError`.
-/

namespace SSDLSpec

/-- Python `ValueError`, the only exception the embedded code raises. -/
inductive PyError : Type where
  | valueError (msg : String) : PyError
deriving DecidableEq, Repr

/-- Message of Python's tuple-unpacking failure on a 1-element list. -/
def unpackMsg : String := "not enough values to unpack (expected 2, got 1)"

/-- Message of Python's `int()` conversion failure. -/
def intMsg (val : String) : String :=
  "invalid literal for int() with base 10: " ++ val

/-- Embedding of Python `input.split(" ", 1)` restricted to the case the code
uses: if the list has a single space character, return the parts before and
after its first occurrence; otherwise (`split` returns a 1-element list and
tuple unpacking fails) return `none`. -/
def splitOnceAux : List Char → Option (List Char × List Char)
  | [] => none
  | c :: rest =>
    if c = ' ' then some ([], rest)
    else (splitOnceAux rest).map (fun p => (c :: p.1, p.2))

/-- String-level form of `splitOnceAux`. -/
def splitOnce (s : String) : Option (String × String) :=
  (splitOnceAux s.data).map (fun p => (⟨p.1⟩, ⟨p.2⟩))

/-- ASCII whitespace stripped by Python `int()` before conversion. -/
def isPySpace (c : Char) : Bool :=
  c = ' ' || c = '\t' || c = '\n' || c = '\r' || c = '\x0b' || c = '\x0c'

/-- Digit run of a Python integer literal: one or more ASCII digits with
single underscores allowed between digits. `acc` carries the value read so
far; used after the first digit has been consumed. -/
def pyDigitsAux (acc : Nat) : List Char → Option Nat
  | [] => some acc
  | '_' :: c :: rest =>
    if c.isDigit then pyDigitsAux (acc * 10 + (c.toNat - 48)) rest else none
  | c :: rest =>
    if c.isDigit then pyDigitsAux (acc * 10 + (c.toNat - 48)) rest else none

/-- Digit part of a Python integer literal (must start with a digit). -/
def pyDigits : List Char → Option Nat
  | c :: rest =>
    if c.isDigit then pyDigitsAux (c.toNat - 48) rest else none
  | [] => none

/-- Embedding of Python `int(val)` on ASCII input: strip surrounding
whitespace, accept an optional single sign, then a digit run (underscores
allowed between digits).  Python integers are unbounded, so no range check
of any kind is performed. -/
def pyInt (s : String) : Option Int :=
  let cs := ((s.data.dropWhile (fun c => isPySpace c)).reverse.dropWhile
      (fun c => isPySpace c)).reverse
  match cs with
  | '-' :: rest => (pyDigits rest).map (fun n => -(n : Int))
  | '+' :: rest => (pyDigits rest).map (fun n => (n : Int))
  | _ => (pyDigits cs).map (fun n => (n : Int))

/-- The `Integer` wrapper class (`Wrap[int]`): Python ints are unbounded. -/
structure Integer : Type where
  value : Int
deriving DecidableEq, Repr

/-- Embedding of `Integer.parse`:
`val, rest = input.split(" ", 1); return cls(int(val)), rest`.
The unpacking fails with a `ValueError` when the input has no space, and
`int(val)` fails with a `ValueError` when `val` is not an integer literal. -/
def Integer.parse (input : String) : Except PyError (Integer × String) :=
  match splitOnce input with
  | none => .error (.valueError unpackMsg)
  | some (val, rest) =>
    match pyInt val with
    | none => .error (.valueError (intMsg val))
    | some n => .ok (⟨n⟩, rest)

/-- The `Version` dataclass: three `Integer` fields. -/
structure Version : Type where
  major : Integer
  minor : Integer
  patch : Integer
deriving DecidableEq, Repr

/-- Embedding of `Version.parse`: three successive `Integer.parse` calls,
each exception propagating unchanged. -/
def Version.parse (input : String) : Except PyError (Version × String) :=
  match Integer.parse input with
  | .error e => .error e
  | .ok (major, rest) =>
    match Integer.parse rest with
    | .error e => .error e
    | .ok (minor, rest2) =>
      match Integer.parse rest2 with
      | .error e => .error e
      | .ok (patch, rest3) => .ok (⟨major, minor, patch⟩, rest3)

/-! ### Record types of the four document sections.

The enums embed the source `StrEnum` classes; `auto()` gives each member its
lowercased name as tag string.  The structures embed the frozen dataclasses;
`urllib` URIs are embedded as their raw text. -/

/-- The `Scope` StrEnum (15 domain-scope tags). -/
inductive Scope : Type where
  | service | industry | manifacturing | education | healthcare
  | socialprograms | government | energy | water | environment
  | transportation | communication | publicsafety | urbanplanning
  | infrastructure
deriving DecidableEq, Repr

/-- Tag string of each `Scope` member, per `StrEnum` `auto()`. -/
def Scope.ofString : String → Option Scope
  | "service" => some .service
  | "industry" => some .industry
  | "manifacturing" => some .manifacturing
  | "education" => some .education
  | "healthcare" => some .healthcare
  | "socialprograms" => some .socialprograms
  | "government" => some .government
  | "energy" => some .energy
  | "water" => some .water
  | "environment" => some .environment
  | "transportation" => some .transportation
  | "communication" => some .communication
  | "publicsafety" => some .publicsafety
  | "urbanplanning" => some .urbanplanning
  | "infrastructure" => some .infrastructure
  | _ => none

/-- The `Provider` StrEnum. -/
inductive Provider : Type where
  | fiware | dataskop
deriving DecidableEq, Repr

/-- Tag string of each `Provider` member. -/
def Provider.ofString : String → Option Provider
  | "fiware" => some .fiware
  | "dataskop" => some .dataskop
  | _ => none

/-- The `SensorType` StrEnum. -/
inductive SensorType : Type where
  | smartmeter
deriving DecidableEq, Repr

/-- Tag string of each `SensorType` member. -/
def SensorType.ofString : String → Option SensorType
  | "smartmeter" => some .smartmeter
  | _ => none

/-- The `AppType` StrEnum. -/
inductive AppType : Type where
  | webapp | mobileapp | desktopapp | iotapp
deriving DecidableEq, Repr

/-- Tag string of each `AppType` member. -/
def AppType.ofString : String → Option AppType
  | "webapp" => some .webapp
  | "mobileapp" => some .mobileapp
  | "desktopapp" => some .desktopapp
  | "iotapp" => some .iotapp
  | _ => none

/-- The `AppLayout` StrEnum. -/
inductive AppLayout : Type where
  | singlepage | multipage | multiwindow
deriving DecidableEq, Repr

/-- Tag string of each `AppLayout` member. -/
def AppLayout.ofString : String → Option AppLayout
  | "singlepage" => some .singlepage
  | "multipage" => some .multipage
  | "multiwindow" => some .multiwindow
  | _ => none

/-- The `DeploymentType` StrEnum. -/
inductive DeploymentType : Type where
  | docker | kubernetes | dockercompose | helm | ansible | terraform
  | cloudformation | serverless
deriving DecidableEq, Repr

/-- Tag string of each `DeploymentType` member. -/
def DeploymentType.ofString : String → Option DeploymentType
  | "docker" => some .docker
  | "kubernetes" => some .kubernetes
  | "dockercompose" => some .dockercompose
  | "helm" => some .helm
  | "ansible" => some .ansible
  | "terraform" => some .terraform
  | "cloudformation" => some .cloudformation
  | "serverless" => some .serverless
  | _ => none

/-- The four visualization kinds (`TableVis`, `ChartVis`, `MapVis`,
`LineVis`) as a closed tag set, per the spec's visualization registry. -/
inductive VisTag : Type where
  | table | chart | map | line
deriving DecidableEq, Repr

/-- Tag string of each visualization kind. -/
def VisTag.ofString : String → Option VisTag
  | "table" => some .table
  | "chart" => some .chart
  | "map" => some .map
  | "line" => some .line
  | _ => none

/-- The `Service` dataclass. -/
structure Service : Type where
  name : String
  version : Version
  scope : Scope
deriving DecidableEq, Repr

/-- The `SensorFormat` dataclass: named fields a sensor emits, embedded as
an association list from field name to the field's raw token. -/
structure SensorFormat : Type where
  props : List (String × String)
deriving DecidableEq, Repr

/-- The `Sensor` dataclass; the URI is embedded as its raw text. -/
structure Sensor : Type where
  type : SensorType
  provider : Provider
  uri : String
  format : SensorFormat
deriving DecidableEq, Repr

/-- The `SensorData` dataclass: a mapping of sensors keyed by identifier,
embedded as an association list. -/
structure SensorData : Type where
  sensors : List (String × Sensor)
deriving DecidableEq, Repr

/-- The `Visualizations` dataclass: a visualization kind and its format
schema (field name to expected type tag), embedded as an association
list. -/
structure Visualizations : Type where
  type : VisTag
  format : List (String × String)
deriving DecidableEq, Repr

/-- The `Application` dataclass. -/
structure Application : Type where
  type : AppType
  layout : AppLayout
  graphs : List (String × Visualizations)
deriving DecidableEq, Repr

/-- The `DeploymentEnv` dataclass; port and credentials are optional. -/
structure DeploymentEnv : Type where
  uri : String
  port : Option Integer
  type : DeploymentType
  credentials : Option (List (String × String))
deriving DecidableEq, Repr

/-- The `Deployment` dataclass: a mapping of environments keyed by name. -/
structure Deployment : Type where
  envs : List (String × DeploymentEnv)
deriving DecidableEq, Repr

/-- The `SSDL` dataclass: the document root. -/
structure SSDL : Type where
  service : Service
  data : SensorData
  application : Application
  deployment : Deployment
deriving DecidableEq, Repr

/-- Embedding of the classmethod `Service.parse_key`. -/
def Service.parse_key : String := ".service"

/-- Embedding of the classmethod `SensorData.parse_key`. -/
def SensorData.parse_key : String := ".data"

/-- Embedding of the classmethod `Application.parse_key`. -/
def Application.parse_key : String := ".application"

/-- Embedding of the classmethod `Deployment.parse_key`. -/
def Deployment.parse_key : String := ".deployment"

/-! ### Spec-modelled parsing engine.

The cursor-based recursive-descent engine, the mapping parser and the
document assembler described by the spec (sections 4.1 to 4.4) are absent
from `src`: only the `Parse`/`ParseKey` protocol declarations, the record
dataclasses and the `Map` wrapper class (a `dict` wrapper with a repr)
exist.  The definitions below are therefore modelled from the spec's words
and marked as such. -/

/-- Modelled from the spec: the structured error taxonomy of the error
handling design, with a position and a human-readable description; the
error classes themselves appear nowhere in src. -/
inductive ParseError : Type where
  | lexError (pos : Nat) (msg : String) : ParseError
  | structuralError (pos : Nat) (msg : String) : ParseError
  | validationError (pos : Nat) (msg : String) : ParseError
deriving DecidableEq, Repr

/-- Modelled from the spec: bare-identifier grammar for mapping keys
(letters, digits, underscore, must not start with a digit). -/
def isIdent (s : String) : Bool :=
  match s.data with
  | [] => false
  | c :: rest => (c.isAlpha || c = '_') && rest.all (fun d => d.isAlphanum || d = '_')

/-- Strict decimal digit run (one or more ASCII digits), the digit part of
the spec's integer token grammar. -/
def decDigits (l : List Char) : Option Nat :=
  if l ≠ [] ∧ l.all Char.isDigit then
    some (l.foldl (fun a c => a * 10 + (c.toNat - 48)) 0)
  else none

/-- Modelled from the spec: the integer token grammar (optional sign, one
or more ASCII digits); the cursor-based primitive token parser is absent
from src. -/
def intLit (s : String) : Option Int :=
  match s.data with
  | '-' :: rest => (decDigits rest).map (fun n => -(n : Int))
  | '+' :: rest => (decDigits rest).map (fun n => (n : Int))
  | cs => (decDigits cs).map (fun n => (n : Int))

/-- Non-negative decimal token, used for version components. -/
def decTok (s : String) : Option Nat := decDigits s.data

/-- Modelled from the spec: whitespace tokenization performed by the
parsing engine, which is absent from src. -/
def tokenizeAux : List Char → List Char → List String
  | cur, [] => if cur.isEmpty then [] else [⟨cur.reverse⟩]
  | cur, c :: rest =>
    if c.isWhitespace then
      if cur.isEmpty then tokenizeAux [] rest
      else (⟨cur.reverse⟩ : String) :: tokenizeAux [] rest
    else tokenizeAux (c :: cur) rest

/-- Token list of a source text. -/
def tokenize (s : String) : List String := tokenizeAux [] s.data

/-- Modelled from the spec: the generic mapping parser, absent from src.
Each entry is `key : value` with the value delegated to the element parser
`p`; a key repeated within one mapping literal is a StructuralError naming
the key, never a silent overwrite.  The fuel argument bounds the recursion;
every element parser used consumes at least one token, so a fuel of one
more than the token count never runs out. -/
def mapParseAux (p : List String → Except ParseError (α × List String)) :
    Nat → List String → List (String × α) → List String →
    Except ParseError (List (String × α) × List String)
  | 0, _, _, _ => .error (.structuralError 0 "mapping fuel exhausted")
  | _ + 1, _, _, [] => .error (.structuralError 0 "unexpected end of input in mapping")
  | fuel + 1, seen, acc, t :: ts =>
    if t = "\x7d" then .ok (acc.reverse, ts)
    else
      match ts with
      | [] => .error (.structuralError 0 "unexpected end of input in mapping")
      | c :: rest =>
        if c = ":" then
          if isIdent t then
            if seen.contains t then
              .error (.structuralError 0 ("duplicate key: " ++ t))
            else
              match p rest with
              | .error e => .error e
              | .ok (v, rest2) => mapParseAux p fuel (t :: seen) ((t, v) :: acc) rest2
          else .error (.lexError 0 ("bad mapping key: " ++ t))
        else .error (.structuralError 0 ("malformed mapping entry at: " ++ t))

/-- Modelled from the spec: a mapping literal is delimited by braces and
holds `key : value` entries. -/
def Map.parse (p : List String → Except ParseError (α × List String))
    (ts : List String) : Except ParseError (List (String × α) × List String) :=
  match ts with
  | t :: rest =>
    if t = "\x7b" then mapParseAux p (rest.length + 1) [] [] rest
    else .error (.structuralError 0 "expected opening brace")
  | [] => .error (.structuralError 0 "unexpected end of input")

/-- Modelled from the spec: element parser for `Mapping<Integer>` literals;
consumes exactly one integer token. -/
def intTok : List String → Except ParseError (Integer × List String)
  | [] => .error (.structuralError 0 "unexpected end of input")
  | t :: rest =>
    match intLit t with
    | some n => .ok (⟨n⟩, rest)
    | none => .error (.lexError 0 ("bad integer token: " ++ t))

/-- Modelled from the spec: element parser for string-valued mapping
entries; consumes exactly one token. -/
def strTok : List String → Except ParseError (String × List String)
  | [] => .error (.structuralError 0 "unexpected end of input")
  | t :: rest => .ok (t, rest)

/-- Token rendering of a list of mapping entries, each `key : value`. -/
def renderEntries : List (String × String) → List String
  | [] => []
  | (k, v) :: es => k :: ":" :: v :: renderEntries es

/-- Token rendering of a full mapping literal. -/
def renderMapTokens (es : List (String × String)) : List String :=
  "\x7b" :: (renderEntries es ++ ["\x7d"])

/-- First key of `ks` already met (in `seen` or earlier in `ks`). -/
def firstDupFrom (seen : List String) : List String → Option String
  | [] => none
  | k :: ks => if seen.contains k then some k else firstDupFrom (k :: seen) ks

/-- Modelled from the spec: parser of one sensor entry value
(`type provider uri format-mapping`); absent from src. -/
def sensorTok : List String → Except ParseError (Sensor × List String)
  | t :: p :: u :: rest =>
    match SensorType.ofString t, Provider.ofString p with
    | some ty, some pr =>
      match Map.parse strTok rest with
      | .ok (fmt, rest2) => .ok (⟨ty, pr, u, ⟨fmt⟩⟩, rest2)
      | .error e => .error e
    | _, _ => .error (.lexError 0 ("bad sensor entry at: " ++ t))
  | _ => .error (.structuralError 0 "unexpected end of sensor entry")

/-- Modelled from the spec: parser of one visualization entry value
(`tag format-mapping`); an undeclared tag is a ValidationError naming it. -/
def visTok : List String → Except ParseError (Visualizations × List String)
  | [] => .error (.structuralError 0 "unexpected end of visualization entry")
  | t :: rest =>
    match VisTag.ofString t with
    | some tag =>
      match Map.parse strTok rest with
      | .ok (fmt, rest2) => .ok (⟨tag, fmt⟩, rest2)
      | .error e => .error e
    | none => .error (.validationError 0 ("unknown visualization tag: " ++ t))

/-- Modelled from the spec: parser of one deployment environment entry
value (`uri deployment-type`, optional port and credentials omitted);
absent from src. -/
def envTok : List String → Except ParseError (DeploymentEnv × List String)
  | u :: t :: rest =>
    match DeploymentType.ofString t with
    | some ty => .ok (⟨u, none, ty, none⟩, rest)
    | none => .error (.lexError 0 ("bad deployment type: " ++ t))
  | _ => .error (.structuralError 0 "unexpected end of deployment entry")

/-- Modelled from the spec: the Service record parser
(`name major minor patch scope`); version components are non-negative
integers. -/
def Service.parseBlock (ts : List String) : Except ParseError Service :=
  match ts with
  | [name, a, b, c, sc] =>
    match decTok a, decTok b, decTok c with
    | some ma, some mi, some pa =>
      match Scope.ofString sc with
      | some scope => .ok ⟨name, ⟨⟨(ma : Int)⟩, ⟨(mi : Int)⟩, ⟨(pa : Int)⟩⟩, scope⟩
      | none => .error (.lexError 0 ("bad scope tag: " ++ sc))
    | _, _, _ => .error (.lexError 0 "bad version component")
  | _ => .error (.structuralError 0 "malformed service section")

/-- Modelled from the spec: the SensorData record parser (a mapping of
sensors). -/
def SensorData.parseBlock (ts : List String) : Except ParseError SensorData :=
  match Map.parse sensorTok ts with
  | .ok (entries, []) => .ok ⟨entries⟩
  | .ok _ => .error (.structuralError 0 "trailing tokens after sensor mapping")
  | .error e => .error e

/-- Modelled from the spec: the Application record parser
(`type layout graphs-mapping`). -/
def Application.parseBlock (ts : List String) : Except ParseError Application :=
  match ts with
  | ty :: ly :: rest =>
    match AppType.ofString ty, AppLayout.ofString ly with
    | some t, some l =>
      match Map.parse visTok rest with
      | .ok (gs, []) => .ok ⟨t, l, gs⟩
      | .ok _ => .error (.structuralError 0 "trailing tokens after graphs mapping")
      | .error e => .error e
    | _, _ => .error (.lexError 0 ("bad application header at: " ++ ty))
  | _ => .error (.structuralError 0 "malformed application section")

/-- Modelled from the spec: the Deployment record parser (a mapping of
environments). -/
def Deployment.parseBlock (ts : List String) : Except ParseError Deployment :=
  match Map.parse envTok ts with
  | .ok (entries, []) => .ok ⟨entries⟩
  | .ok _ => .error (.structuralError 0 "trailing tokens after environment mapping")
  | .error e => .error e

/-- Whether a token is one of the four fixed section keys. -/
def isSectionKey (t : String) : Bool :=
  t = Service.parse_key || t = SensorData.parse_key ||
  t = Application.parse_key || t = Deployment.parse_key

/-- Modelled from the spec: bound each section's content block by the next
top-level key. -/
def splitSectionsAux (cur : String) (acc : List String) :
    List String → List (String × List String)
  | [] => [(cur, acc.reverse)]
  | t :: ts =>
    if isSectionKey t then (cur, acc.reverse) :: splitSectionsAux t [] ts
    else splitSectionsAux cur (t :: acc) ts

/-- Modelled from the spec: section resolution over the token stream; the
document is a flat sequence of blocks each introduced by a section key. -/
def splitSections : List String → Except ParseError (List (String × List String))
  | [] => .error (.structuralError 0 "empty document")
  | t :: ts =>
    if isSectionKey t then .ok (splitSectionsAux t [] ts)
    else .error (.structuralError 0 ("unexpected top-level token: " ++ t))

/-- Content block of the section keyed `k`, when present. -/
def findSection (k : String) (ss : List (String × List String)) :
    Option (List String) :=
  (ss.find? (fun e => e.1 = k)).map Prod.snd

/-- Modelled from the spec: the single entry point of the core,
`parse(source text) -> Result<SSDL, ParseError>`, absent from src.  It
resolves sections, rejects duplicate sections, requires all four sections,
parses each block with its record parser and assembles the root. -/
def SSDL.parse (source : String) : Except ParseError SSDL :=
  match splitSections (tokenize source) with
  | .error e => .error e
  | .ok sections =>
    match firstDupFrom [] (sections.map Prod.fst) with
    | some k => .error (.structuralError 0 ("duplicate section: " ++ k))
    | none =>
      match findSection Service.parse_key sections,
            findSection SensorData.parse_key sections,
            findSection Application.parse_key sections,
            findSection Deployment.parse_key sections with
      | some sb, some db, some ab, some pb =>
        match Service.parseBlock sb with
        | .error e => .error e
        | .ok svc =>
          match SensorData.parseBlock db with
          | .error e => .error e
          | .ok sd =>
            match Application.parseBlock ab with
            | .error e => .error e
            | .ok app =>
              match Deployment.parseBlock pb with
              | .error e => .error e
              | .ok dep => .ok ⟨svc, sd, app, dep⟩
      | none, _, _, _ =>
        .error (.validationError 0 ("missing section: " ++ Service.parse_key))
      | _, none, _, _ =>
        .error (.validationError 0 ("missing section: " ++ SensorData.parse_key))
      | _, _, none, _ =>
        .error (.validationError 0 ("missing section: " ++ Application.parse_key))
      | _, _, _, none =>
        .error (.validationError 0 ("missing section: " ++ Deployment.parse_key))

/-! Helper lemmas about the splitting primitive. -/

theorem splitOnceAux_eq_none {l : List Char} (h : ∀ c ∈ l, c ≠ ' ') :
    splitOnceAux l = none := by
  induction l with
  | nil => rfl
  | cons c rest ih =>
    have hc : c ≠ ' ' := h c (List.mem_cons_self c rest)
    simp only [splitOnceAux, if_neg hc]
    rw [ih fun d hd => h d (List.mem_cons_of_mem c hd)]
    rfl

theorem splitOnceAux_eq_some {l a b : List Char}
    (h : splitOnceAux l = some (a, b)) : l = a ++ ' ' :: b := by
  induction l generalizing a b with
  | nil => simp [splitOnceAux] at h
  | cons c rest ih =>
    by_cases hc : c = ' '
    · subst hc
      simp [splitOnceAux] at h
      obtain ⟨ha, hb⟩ := h
      subst ha; subst hb; rfl
    · simp only [splitOnceAux, if_neg hc] at h
      match hr : splitOnceAux rest with
      | none => rw [hr] at h; simp [Option.map] at h
      | some (a0, b0) =>
        rw [hr] at h
        simp [Option.map] at h
        obtain ⟨ha, hb⟩ := h
        subst hb
        rw [ih hr, ← ha]
        rfl

theorem string_assemble {s : String} {a b : List Char}
    (h : s.data = a ++ ' ' :: b) :
    (⟨a⟩ : String) ++ " " ++ (⟨b⟩ : String) = s := by
  cases s with
  | mk d =>
    apply String.ext
    simpa using h.symm

theorem Integer.parse_ok_split {s rest : String} {n : Integer}
    (h : Integer.parse s = .ok (n, rest)) :
    ∃ a : List Char, s.data = a ++ ' ' :: rest.data := by
  unfold Integer.parse at h
  match hs : splitOnce s with
  | none => rw [hs] at h; exact absurd h (by simp)
  | some (val, r) =>
    rw [hs] at h
    have h2 : (match pyInt val with
        | none => Except.error (PyError.valueError (intMsg val))
        | some m => Except.ok ((⟨m⟩ : Integer), r)) = Except.ok (n, rest) := h
    match hv : pyInt val with
    | none => rw [hv] at h2; exact absurd h2 (by simp)
    | some m =>
      rw [hv] at h2
      simp only [Except.ok.injEq, Prod.mk.injEq] at h2
      obtain ⟨-, hr⟩ := h2
      subst hr
      unfold splitOnce at hs
      match ha : splitOnceAux s.data with
      | none => rw [ha] at hs; simp [Option.map] at hs
      | some (x, y) =>
        rw [ha] at hs
        simp [Option.map] at hs
        obtain ⟨-, hy⟩ := hs
        exact ⟨x, by rw [splitOnceAux_eq_some ha, ← hy]⟩

theorem integer_parse_step_reconstruct {s rest : String} {n : Integer}
    (h : Integer.parse s = .ok (n, rest)) :
    ∃ tok : String, tok ++ " " ++ rest = s ∧ rest.length < s.length := by
  obtain ⟨a, ha⟩ := Integer.parse_ok_split h
  refine ⟨⟨a⟩, ?_, ?_⟩
  · exact string_assemble ha
  · show rest.data.length < s.data.length
    rw [ha]
    simp
    omega

theorem version_parse_steps_reconstruct {s rest : String} {v : Version}
    (h : Version.parse s = .ok (v, rest)) :
    ∃ t1 t2 t3 : String,
      t1 ++ " " ++ (t2 ++ " " ++ (t3 ++ " " ++ rest)) = s ∧
      rest.length < s.length := by
  unfold Version.parse at h
  match h1 : Integer.parse s with
  | .error e => rw [h1] at h; exact absurd h (by simp)
  | .ok (n1, r1) =>
    rw [h1] at h
    have hb1 : (match Integer.parse r1 with
        | .error e => (.error e : Except PyError (Version × String))
        | .ok (minor, rest2) =>
          match Integer.parse rest2 with
          | .error e => .error e
          | .ok (patch, rest3) => .ok (⟨n1, minor, patch⟩, rest3)) =
        .ok (v, rest) := h
    match h2 : Integer.parse r1 with
    | .error e => rw [h2] at hb1; exact absurd hb1 (by simp)
    | .ok (n2, r2) =>
      rw [h2] at hb1
      have hb2 : (match Integer.parse r2 with
          | .error e => (.error e : Except PyError (Version × String))
          | .ok (patch, rest3) => .ok (⟨n1, n2, patch⟩, rest3)) =
          .ok (v, rest) := hb1
      match h3 : Integer.parse r2 with
      | .error e => rw [h3] at hb2; exact absurd hb2 (by simp)
      | .ok (n3, r3) =>
        rw [h3] at hb2
        simp only [Except.ok.injEq, Prod.mk.injEq] at hb2
        obtain ⟨-, hr⟩ := hb2
        subst hr
        obtain ⟨t1, ht1, hl1⟩ := integer_parse_step_reconstruct h1
        obtain ⟨t2, ht2, hl2⟩ := integer_parse_step_reconstruct h2
        obtain ⟨t3, ht3, hl3⟩ := integer_parse_step_reconstruct h3
        refine ⟨t1, t2, t3, ?_, by omega⟩
        rw [ht3, ht2, ht1]

/-! Helper lemmas about the modelled mapping parser. -/

theorem firstDupFrom_eq_none {seen ks} (h : firstDupFrom seen ks = none) :
    ks.Nodup ∧ ∀ x ∈ ks, x ∉ seen := by
  induction ks generalizing seen with
  | nil => simp
  | cons k ks ih =>
    by_cases hm : k ∈ seen
    · exfalso
      have hk : firstDupFrom seen (k :: ks) = some k := by
        simp [firstDupFrom, hm]
      rw [hk] at h
      exact Option.noConfusion h
    · have h2 : firstDupFrom (k :: seen) ks = none := by
        simpa [firstDupFrom, hm] using h
      obtain ⟨hnd, hmem⟩ := ih h2
      have hks : k ∉ ks := fun hk => (hmem k hk) (List.mem_cons_self k seen)
      refine ⟨List.nodup_cons.mpr ⟨hks, hnd⟩, ?_⟩
      intro x hx
      rcases List.mem_cons.mp hx with rfl | hx
      · exact hm
      · exact fun hxs => hmem x hx (List.mem_cons_of_mem k hxs)

theorem firstDupFrom_eq_some {seen ks k} (h : firstDupFrom seen ks = some k) :
    (k ∈ seen ∧ k ∈ ks) ∨ 2 ≤ ks.count k := by
  induction ks generalizing seen with
  | nil => simp [firstDupFrom] at h
  | cons k0 ks ih =>
    by_cases hm : k0 ∈ seen
    · have hk : k0 = k := by simpa [firstDupFrom, hm] using h
      subst hk
      exact Or.inl ⟨hm, List.mem_cons_self _ _⟩
    · have h2 : firstDupFrom (k0 :: seen) ks = some k := by
        simpa [firstDupFrom, hm] using h
      rcases ih h2 with ⟨hin, hks⟩ | hcount
      · rcases List.mem_cons.mp hin with rfl | hin
        · right
          have h1 : 0 < ks.count k := List.count_pos_iff.mpr hks
          have h2c : (k :: ks).count k = ks.count k + 1 := by
            simp
          omega
        · exact Or.inl ⟨hin, List.mem_cons_of_mem k0 hks⟩
      · right
        have hle : ks.count k ≤ (k0 :: ks).count k := by
          rw [List.count_cons]
          split <;> omega
        omega

theorem renderEntries_length (es : List (String × String)) :
    (renderEntries es).length = 3 * es.length := by
  induction es with
  | nil => rfl
  | cons e es ih =>
    obtain ⟨k, v⟩ := e
    simp [renderEntries, ih]
    omega

theorem isIdent_ne_rbrace {k : String} (h : isIdent k = true) : ¬ (k = "\x7d") := by
  intro hk
  rw [hk] at h
  exact absurd h (by decide)

theorem mapParseAux_intTok_render (es : List (String × String)) :
    ∀ (fuel : Nat) (seen : List String) (acc : List (String × Integer))
      (tail : List String),
      (∀ e ∈ es, isIdent e.1 = true ∧ (intLit e.2).isSome = true) →
      es.length < fuel →
      mapParseAux intTok fuel seen acc (renderEntries es ++ "\x7d" :: tail) =
        (match firstDupFrom seen (es.map Prod.fst) with
        | some k => .error (.structuralError 0 ("duplicate key: " ++ k))
        | none =>
          .ok (acc.reverse ++
            es.map (fun e => (e.1, (⟨(intLit e.2).get!⟩ : Integer))), tail)) := by
  induction es with
  | nil =>
    intro fuel seen acc tail _ hfuel
    match fuel, hfuel with
    | f + 1, _ =>
      simp [renderEntries, mapParseAux, firstDupFrom]
  | cons e es ih =>
    obtain ⟨k, v⟩ := e
    intro fuel seen acc tail hval hfuel
    match fuel, hfuel with
    | f + 1, hf =>
      have hk : isIdent k = true := (hval (k, v) (List.mem_cons_self _ _)).1
      have hv : (intLit v).isSome = true := (hval (k, v) (List.mem_cons_self _ _)).2
      obtain ⟨n, hn⟩ := Option.isSome_iff_exists.mp hv
      have hkb : ¬ (k = "\x7d") := isIdent_ne_rbrace hk
      have hval2 : ∀ e ∈ es, isIdent e.1 = true ∧ (intLit e.2).isSome = true :=
        fun e he => hval e (List.mem_cons_of_mem _ he)
      have hlen : es.length < f := by
        have h1 := hf
        simp [List.length_cons] at h1
        omega
      by_cases hm : k ∈ seen
      · simp only [renderEntries, List.cons_append, mapParseAux]
        rw [if_neg hkb]
        simp [hk, hm, firstDupFrom]
      · have hred : mapParseAux intTok (f + 1) seen acc
            (k :: ":" :: v :: (renderEntries es ++ "\x7d" :: tail)) =
            mapParseAux intTok f (k :: seen) ((k, (⟨n⟩ : Integer)) :: acc)
              (renderEntries es ++ "\x7d" :: tail) := by
          simp only [mapParseAux]
          rw [if_neg hkb]
          simp [hk, hm, intTok, hn]
        simp only [renderEntries, List.cons_append]
        rw [hred, ih f (k :: seen) ((k, (⟨n⟩ : Integer)) :: acc) tail hval2 hlen]
        simp only [List.map_cons]
        have hfd : firstDupFrom seen (k :: es.map Prod.fst) =
            firstDupFrom (k :: seen) (es.map Prod.fst) := by
          simp [firstDupFrom, hm]
        rw [hfd]
        cases hd : firstDupFrom (k :: seen) (es.map Prod.fst) with
        | some kd => rfl
        | none => simp [hn]

/-! ### Claim theorems. -/

/-- C1: the spec says parsing "1 2 3" with `Version.parse` yields
Version(1,2,3) and consumes exactly three tokens.  The code instead raises
a `ValueError`: the third `Integer.parse` call receives "3" and
`"3".split(" ", 1)` yields a single element, so the tuple unpacking
fails. -/
theorem version_parse_three_tokens_raises :
    Version.parse "1 2 3" = .error (.valueError unpackMsg) := rfl

/-- C2: the spec says parsing the canonical decimal form of an Integer
yields the value with nothing unconsumed.  The code instead raises a
`ValueError` on the canonical form "42", which contains no space to split
on. -/
theorem integer_roundtrip_canonical_raises :
    Integer.parse "42" = .error (.valueError unpackMsg) := rfl

/-- C3: the spec says an integer whose magnitude exceeds the 64-bit signed
range fails with a LexError and that only sign-plus-digit tokens are
accepted.  The code instead parses 2^63 = 9223372036854775808 (one past
the largest 64-bit signed value) successfully, Python ints being unbounded,
and also accepts the out-of-grammar underscored token "1_2". -/
theorem integer_parse_overflow_accepted :
    Integer.parse "9223372036854775808 x" = .ok (⟨9223372036854775808⟩, "x") ∧
    (2 : Int) ^ 63 = 9223372036854775808 ∧
    Integer.parse "1_2 " = .ok (⟨12⟩, "") :=
  ⟨rfl, by norm_num, rfl⟩

/-- C4: the core exposes a single entry point taking the full source text
and returning an assembled SSDL document or a structured ParseError.  The
entry point is absent from src; `SSDL.parse` is modelled from the spec and
shown here to produce both outcomes: a fully assembled document on a
well-formed source and a structured error (the missing-deployment
validation error) on an incomplete one. -/
theorem ssdl_parse_entry_point :
    SSDL.parse (".service demo 1 0 0 service " ++
        ".data \x7b m1 : smartmeter fiware http://sensors.example " ++
        "\x7b temp : double \x7d \x7d " ++
        ".application webapp singlepage \x7b g1 : table \x7b x : integer \x7d \x7d " ++
        ".deployment \x7b prod : http://host.example docker \x7d") =
      .ok ⟨⟨"demo", ⟨⟨1⟩, ⟨0⟩, ⟨0⟩⟩, .service⟩,
           ⟨[("m1", ⟨.smartmeter, .fiware, "http://sensors.example",
              ⟨[("temp", "double")]⟩⟩)]⟩,
           ⟨.webapp, .singlepage, [("g1", ⟨.table, [("x", "integer")]⟩)]⟩,
           ⟨[("prod", ⟨"http://host.example", none, .docker, none⟩)]⟩⟩ ∧
    SSDL.parse (".service demo 1 0 0 service .data \x7b \x7d " ++
        ".application webapp singlepage \x7b \x7d") =
      .error (.validationError 0 ("missing section: " ++ Deployment.parse_key)) :=
  ⟨rfl, rfl⟩

/-- C5: the spec's Version invariant says no component may be negative, so
a successful `Version.parse` should never return a negative component.
The code performs no sign validation: on "-1 2 3 " it succeeds and returns
Version(-1, 2, 3) with a negative major component. -/
theorem version_parse_negative_accepted :
    Version.parse "-1 2 3 " = .ok (⟨⟨-1⟩, ⟨2⟩, ⟨3⟩⟩, "") ∧
    ((⟨⟨-1⟩, ⟨2⟩, ⟨3⟩⟩ : Version)).major.value < 0 :=
  ⟨rfl, by decide⟩

/-- C6: every parse operation is a pure, deterministic function of its
input.  The source methods read nothing but their argument (a string split
and an int conversion; no global or class state), which justifies embedding
them as functions; re-invoking either parser on the same input therefore
reproduces the identical result, success or error alike. -/
theorem parse_pure_deterministic (s : String) :
    Integer.parse s = Integer.parse s ∧ Version.parse s = Version.parse s :=
  ⟨rfl, rfl⟩

/-- C7: parsing a mapping literal with a repeated key fails with a
StructuralError naming a duplicated key (one occurring at least twice);
the duplicate is never resolved by silently overwriting.  The mapping
parser is absent from src (the `Map` class is only a dict wrapper), so
`Map.parse` is modelled from the spec. -/
theorem map_parse_duplicate_key (es : List (String × String))
    (hval : ∀ e ∈ es, isIdent e.1 = true ∧ (intLit e.2).isSome = true)
    (hdup : ¬ (es.map Prod.fst).Nodup) :
    ∃ k, 2 ≤ (es.map Prod.fst).count k ∧
      Map.parse intTok (renderMapTokens es) =
        .error (.structuralError 0 ("duplicate key: " ++ k)) := by
  match hd : firstDupFrom [] (es.map Prod.fst) with
  | none => exact absurd (firstDupFrom_eq_none hd).1 hdup
  | some k =>
    rcases firstDupFrom_eq_some hd with ⟨hin, -⟩ | hcount
    · simp at hin
    · refine ⟨k, hcount, ?_⟩
      have hfuel : es.length < (renderEntries es ++ ["\x7d"]).length + 1 := by
        simp [renderEntries_length]
        omega
      have hchar := mapParseAux_intTok_render es
        ((renderEntries es ++ ["\x7d"]).length + 1) [] [] [] hval hfuel
      simp only [renderMapTokens, Map.parse, if_pos]
      rw [hchar, hd]

/-- Witness for C7 at the literal with entries a:1 and a:2. -/
theorem map_parse_duplicate_key_witness :
    ∃ k, 2 ≤ ((([("a", "1"), ("a", "2")] : List (String × String)).map
        Prod.fst).count k) ∧
      Map.parse intTok (renderMapTokens [("a", "1"), ("a", "2")]) =
        .error (.structuralError 0 ("duplicate key: " ++ k)) :=
  map_parse_duplicate_key [("a", "1"), ("a", "2")] (by decide) (by decide)

/-- C8: the four section record types are addressed by stable, pairwise
distinct key strings. -/
theorem parse_keys_pairwise_distinct :
    Service.parse_key = ".service" ∧
    SensorData.parse_key = ".data" ∧
    Application.parse_key = ".application" ∧
    Deployment.parse_key = ".deployment" ∧
    Service.parse_key ≠ SensorData.parse_key ∧
    Service.parse_key ≠ Application.parse_key ∧
    Service.parse_key ≠ Deployment.parse_key ∧
    SensorData.parse_key ≠ Application.parse_key ∧
    SensorData.parse_key ≠ Deployment.parse_key ∧
    Application.parse_key ≠ Deployment.parse_key := by
  refine ⟨rfl, rfl, rfl, rfl, ?_, ?_, ?_, ?_, ?_, ?_⟩ <;> decide

/-- C9: on every input containing no space character, `Integer.parse`
raises a `ValueError` and never returns a value: `input.split(" ", 1)`
yields a single element and the two-variable tuple unpacking fails before
any conversion happens. -/
theorem integer_parse_requires_space (s : String)
    (h : ∀ c ∈ s.data, c ≠ ' ') :
    Integer.parse s = .error (.valueError unpackMsg) := by
  unfold Integer.parse splitOnce
  rw [splitOnceAux_eq_none h]
  rfl

/-- Witness for C9 at the space-free well-formed token "7". -/
theorem integer_parse_requires_space_witness :
    Integer.parse "7" = .error (.valueError unpackMsg) :=
  integer_parse_requires_space "7" (by decide)

/-- C10: whenever `Integer.parse` succeeds, the consumed token followed by
one space and the returned remainder reconstitutes the input exactly, and
the remainder is strictly shorter (a proper suffix); for `Version.parse`,
three consumed tokens each followed by one space do so. -/
theorem parse_remainder_reconstructs :
    (∀ (s rest : String) (n : Integer),
      Integer.parse s = .ok (n, rest) →
      ∃ tok : String, tok ++ " " ++ rest = s ∧ rest.length < s.length) ∧
    (∀ (s rest : String) (v : Version),
      Version.parse s = .ok (v, rest) →
      ∃ t1 t2 t3 : String,
        t1 ++ " " ++ (t2 ++ " " ++ (t3 ++ " " ++ rest)) = s ∧
        rest.length < s.length) :=
  ⟨fun _ _ _ h => integer_parse_step_reconstruct h,
   fun _ _ _ h => version_parse_steps_reconstruct h⟩

/-- Witness for C10 at "5 x" (Integer) and "1 2 3 r" (Version). -/
theorem parse_remainder_reconstructs_witness :
    (∃ tok : String, tok ++ " " ++ "x" = "5 x" ∧
      ("x" : String).length < ("5 x" : String).length) ∧
    (∃ t1 t2 t3 : String,
      t1 ++ " " ++ (t2 ++ " " ++ (t3 ++ " " ++ "r")) = "1 2 3 r" ∧
      ("r" : String).length < ("1 2 3 r" : String).length) :=
  ⟨parse_remainder_reconstructs.1 "5 x" "x" ⟨5⟩ rfl,
   parse_remainder_reconstructs.2 "1 2 3 r" "r" ⟨⟨1⟩, ⟨2⟩, ⟨3⟩⟩ rfl⟩

end SSDLSpec
